import Mathlib

/-!
Shallow embedding of the capture-poll loop of the NSF mobile client
(src/frontend/app/index.tsx and src/frontend/app/(tabs)/index.tsx).

The two screens contain near-identical implementations of a periodic
capture-and-infer loop (captureAndSend / runCycle / a detection useEffect),
and the root screen additionally has a one-shot smart query
(handleSmartQuery) sharing the same isSending guard.  We embed:

  * the Detection value type and the tolerant response parsing
    (Array.isArray check, default filling, sort by distance);
  * the question-defaulting of the smart query;
  * a small-step transition system over the loop state (isSending,
    error, detections, alertText, the detection effect with its
    cancelled flag and setTimeout re-arm, and the speech collaborator),
    with the suspension points of the async functions as step boundaries.

Effect instances are modelled by generation numbers: mounting the
detection effect (isDetecting becoming true) creates a fresh generation;
the cleanup (stop) invalidates it, which is exactly what the per-instance
`cancelled` flag plus the cleared shared timeout ref achieve in the code.
-/

/-- Mirrors the Detection record type of both screens. -/
structure Detection where
  label : String
  distance : Rat
  direction : String
  risk : String
deriving DecidableEq, Repr

/-- Mirrors one element of the backend `objects` array, with every field
optional, as in the declared HTTP response shape (any field may be absent). -/
structure RawObject where
  label : Option String
  distance : Option Rat
  direction : Option String
  risk : Option String
deriving DecidableEq, Repr

/-- Mirrors the possible states of the `objects` field of the JSON body:
absent, present but not an array (both rejected by Array.isArray), or an
array of items. -/
inductive ObjectsField where
  | absent : ObjectsField
  | notArray : ObjectsField
  | arr : List RawObject → ObjectsField
deriving DecidableEq, Repr

/-- Mirrors the JSON response body as used by the screens: the `objects`
field, and the optional `alert_text` (detection variant) and `answer_text`
(query variant) fields. -/
structure RawResponse where
  objects : ObjectsField
  alert_text : Option String
  answer_text : Option String
deriving DecidableEq, Repr

/-- Mirrors `Array.isArray(json.objects) ? json.objects : []`. -/
def extractObjects (r : RawResponse) : List RawObject :=
  match r.objects with
  | .arr items => items
  | _ => []

/-- Mirrors the per-item default filling in captureAndSend and
handleSmartQuery: `label ?? 'Unknown'`, `Number(distance ?? 0)`,
`direction ?? 'center'`, `risk ?? 'clear'`. -/
def toDetection (item : RawObject) : Detection :=
  { label := item.label.getD "Unknown"
    distance := item.distance.getD 0
    direction := item.direction.getD "center"
    risk := item.risk.getD "clear" }

/-- Comparison used by `.sort((a, b) => a.distance - b.distance)`: the
comparator is negative or zero exactly when the distances are ordered. -/
def distLe (a b : Detection) : Prop := a.distance ≤ b.distance

instance : DecidableRel distLe :=
  fun a b => inferInstanceAs (Decidable (a.distance ≤ b.distance))

instance : IsTotal Detection distLe :=
  ⟨fun a b => le_total a.distance b.distance⟩

instance : IsTrans Detection distLe :=
  ⟨fun _ _ _ hab hbc => le_trans hab hbc⟩

/-- Mirrors the whole `parsedDetections` computation of one cycle:
extract the objects array tolerantly, map each item to a Detection with
defaults, and sort ascending by distance.  ECMAScript sort with a
consistent comparator produces the stably sorted permutation of the
array, which is exactly what insertion sort computes. -/
def parsedDetections (r : RawResponse) : List Detection :=
  ((extractObjects r).map toDetection).insertionSort distLe

/-- Mirrors the JavaScript `||` fallback on strings: the empty string is
falsy, every other string is truthy. -/
def jsOrString (a b : String) : String :=
  if a = "" then b else a

/-- Mirrors JavaScript String.prototype.trim: drop leading and trailing
whitespace characters. -/
def jsTrim (s : String) : String :=
  String.mk (((s.data.dropWhile Char.isWhitespace).reverse.dropWhile
    Char.isWhitespace).reverse)

/-- Mirrors the fixed default prompt of handleSmartQuery. -/
def DEFAULT_PROMPT : String :=
  "What important things are in front of me and where are they?"

/-- Mirrors `const questionToSend = userQuestion.trim() || DEFAULT_PROMPT`. -/
def questionToSend (userQuestion : String) : String :=
  jsOrString (jsTrim userQuestion) DEFAULT_PROMPT

/-- Mirrors `const answer = (json.answer_text ?? '').trim()`. -/
def answerText (r : RawResponse) : String :=
  jsTrim (r.answer_text.getD "")

/-- Mirrors `const spokenText = answer || questionToSend`. -/
def spokenText (r : RawResponse) (q : String) : String :=
  jsOrString (answerText r) q

/-- Mirrors speakAlert acting on the speech collaborator: an empty text is
dropped (`if (!text) return`), a non-empty text pre-empts whatever is being
spoken (Speech.stop then Speech.speak); the head of the log is the most
recent utterance requested. -/
def speakAlert (text : String) (log : List String) : List String :=
  if text = "" then log else text :: log

/-- Mirrors the two failure sources of a cycle: a non-ok HTTP status
(`throw new Error('Server error: ' + status)`) and a thrown transport /
capture error carrying its own message. -/
inductive CycleFailure where
  | badStatus : Nat → CycleFailure
  | transport : String → CycleFailure
deriving DecidableEq, Repr

/-- Message stored into the error state by the catch block: the thrown
message, which for a non-ok status is the string built at the throw site. -/
def failureMessage : CycleFailure → String
  | .badStatus n => "Server error: " ++ toString n
  | .transport m => m

/-- Outcome with which an in-flight capture+request round trip resolves. -/
inductive Outcome where
  | success : RawResponse → Outcome
  | failure : CycleFailure → Outcome
deriving DecidableEq, Repr

/-- Timer pending in the shared detectionLoopRef slot: the generation of
the effect instance whose runCycle it will invoke, and the delay it was
armed with. -/
structure Timer where
  gen : Nat
  delayMs : Nat
deriving DecidableEq, Repr

/-- Whole-screen state of the root screen (app/index.tsx): the loop state
variables, the single shared timeout ref, the generations bookkeeping for
the detection effect, the bodies currently suspended at an await point,
and the speech log.  detectRuns lists the generations of captureAndSend
bodies past their guard and not yet finished; queryRuns likewise lists the
question strings of outstanding handleSmartQuery bodies.  Nothing in the
type prevents several bodies from being outstanding at once; that at most
one ever is must be proved from the guards. -/
structure Sys where
  activeGen : Option Nat
  nextGen : Nat
  inFlight : Bool
  lastError : String
  lastDetections : List Detection
  lastAlertText : String
  timer : Option Timer
  detectRuns : List Nat
  queryRuns : List String
  speechLog : List String
deriving DecidableEq, Repr

/-- Snapshot of the LoopState fields named by the specification. -/
structure LoopState where
  active : Bool
  inFlight : Bool
  lastError : String
  lastDetections : List Detection
  lastAlertText : String
deriving DecidableEq, Repr

/-- Reads the specification-level LoopState out of the screen state. -/
def loopView (s : Sys) : LoopState :=
  { active := s.activeGen.isSome
    inFlight := s.inFlight
    lastError := s.lastError
    lastDetections := s.lastDetections
    lastAlertText := s.lastAlertText }

/-- State of the freshly mounted screen. -/
def initSys : Sys :=
  { activeGen := none, nextGen := 0, inFlight := false, lastError := ""
    lastDetections := [], lastAlertText := "", timer := none
    detectRuns := [], queryRuns := [], speechLog := [] }

/-- Mirrors runCycle from its invocation up to the first await: the
per-instance cancelled check; then the captureAndSend guard
(`if (!cameraRef.current || isSending) return`).  When the guard fails,
captureAndSend returns at once and runCycle proceeds straight to the
re-arm check and setTimeout; when it passes, the body clears the error,
raises the in-flight flag, and suspends awaiting capture and fetch. -/
def runCycleInvoke (g : Nat) (camOk : Bool) (s : Sys) : Sys :=
  if s.activeGen ≠ some g then s
  else if !camOk || s.inFlight then
    { s with timer := some { gen := g, delayMs := 1500 } }
  else
    { s with lastError := "", inFlight := true, detectRuns := g :: s.detectRuns }

/-- Mirrors the success branch of captureAndSend: store the parsed,
sorted detections, store the alert text defaulted to the empty string,
and hand it to speakAlert. -/
def applyDetectSuccess (r : RawResponse) (s : Sys) : Sys :=
  let newAlert := r.alert_text.getD ""
  { s with lastDetections := parsedDetections r
           lastAlertText := newAlert
           speechLog := speakAlert newAlert s.speechLog }

/-- Mirrors the catch block of a cycle: only the error message changes. -/
def applyDetectOutcome (o : Outcome) (s : Sys) : Sys :=
  match o with
  | .success r => applyDetectSuccess r s
  | .failure f => { s with lastError := failureMessage f }

/-- Mirrors the success branch of handleSmartQuery: store the parsed
detections, compute the spoken text from the answer with the question as
fallback, store it as the alert text, hand it to speakAlert. -/
def applyQuerySuccess (q : String) (r : RawResponse) (s : Sys) : Sys :=
  let spoken := spokenText r q
  { s with lastDetections := parsedDetections r
           lastAlertText := spoken
           speechLog := speakAlert spoken s.speechLog }

/-- Mirrors the catch block of handleSmartQuery. -/
def applyQueryOutcome (q : String) (o : Outcome) (s : Sys) : Sys :=
  match o with
  | .success r => applyQuerySuccess q r s
  | .failure f => { s with lastError := failureMessage f }

/-- Events at the suspension points of the screen: arming the loop
(isDetecting becoming true mounts the effect, which calls runCycle at
once), disarming it (the cleanup sets cancelled and clears the timeout),
the pending timeout firing, an in-flight cycle resolving with an outcome,
pressing the smart-query button, and an in-flight smart query resolving. -/
inductive Ev where
  | start : Bool → Ev
  | stop : Ev
  | timerFire : Bool → Ev
  | finishDetect : Outcome → Ev
  | smartQuery : Bool → String → Ev
  | finishQuery : Outcome → Ev
deriving DecidableEq, Repr

/-- Whether an event is the arming of the detection loop. -/
def Ev.isStart : Ev → Bool
  | .start _ => true
  | _ => false

/-- One step of the screen.  finishDetect resumes the oldest outstanding
captureAndSend body: it applies the outcome, lowers the in-flight flag in
the finally block, returns into runCycle, and re-arms through setTimeout
only when its own effect instance is still the live one (neither cancelled
nor superseded).  finishQuery resumes the oldest outstanding
handleSmartQuery body, which never re-arms anything. -/
def step (s : Sys) (e : Ev) : Sys :=
  match e with
  | .start camOk =>
    match s.activeGen with
    | some _ => s
    | none =>
      let g := s.nextGen
      runCycleInvoke g camOk { s with activeGen := some g, nextGen := g + 1 }
  | .stop => { s with activeGen := none, timer := none }
  | .timerFire camOk =>
    match s.timer with
    | none => s
    | some t => runCycleInvoke t.gen camOk { s with timer := none }
  | .finishDetect o =>
    match s.detectRuns with
    | [] => s
    | g :: rest =>
      let s1 := applyDetectOutcome o s
      let s2 := { s1 with inFlight := false, detectRuns := rest }
      if s2.activeGen = some g then
        { s2 with timer := some { gen := g, delayMs := 1500 } }
      else s2
  | .smartQuery camOk userQuestion =>
    if !camOk || s.inFlight then s
    else
      { s with lastError := "", inFlight := true
               queryRuns := questionToSend userQuestion :: s.queryRuns }
  | .finishQuery o =>
    match s.queryRuns with
    | [] => s
    | q :: rest =>
      let s1 := applyQueryOutcome q o s
      { s1 with inFlight := false, queryRuns := rest }

/-- Runs a list of events from a state. -/
def steps (s : Sys) : List Ev → Sys
  | [] => s
  | e :: tr => steps (step s e) tr

/-- Number of capture-or-request bodies currently outstanding. -/
def outstanding (s : Sys) : Nat :=
  s.detectRuns.length + s.queryRuns.length

/-- Guard invariant maintained by the screen: the in-flight flag is up
exactly while one body is outstanding, and never more than one is. -/
def GuardInv (s : Sys) : Prop :=
  outstanding s ≤ 1 ∧ (s.inFlight = true ↔ outstanding s = 1)

@[simp]
theorem applyDetectOutcome_activeGen (o : Outcome) (s : Sys) :
    (applyDetectOutcome o s).activeGen = s.activeGen := by
  cases o <;> rfl

@[simp]
theorem applyDetectOutcome_timer (o : Outcome) (s : Sys) :
    (applyDetectOutcome o s).timer = s.timer := by
  cases o <;> rfl

@[simp]
theorem applyDetectOutcome_detectRuns (o : Outcome) (s : Sys) :
    (applyDetectOutcome o s).detectRuns = s.detectRuns := by
  cases o <;> rfl

@[simp]
theorem applyDetectOutcome_queryRuns (o : Outcome) (s : Sys) :
    (applyDetectOutcome o s).queryRuns = s.queryRuns := by
  cases o <;> rfl

@[simp]
theorem applyDetectOutcome_inFlight (o : Outcome) (s : Sys) :
    (applyDetectOutcome o s).inFlight = s.inFlight := by
  cases o <;> rfl

@[simp]
theorem applyQueryOutcome_activeGen (q : String) (o : Outcome) (s : Sys) :
    (applyQueryOutcome q o s).activeGen = s.activeGen := by
  cases o <;> rfl

@[simp]
theorem applyQueryOutcome_timer (q : String) (o : Outcome) (s : Sys) :
    (applyQueryOutcome q o s).timer = s.timer := by
  cases o <;> rfl

@[simp]
theorem applyQueryOutcome_detectRuns (q : String) (o : Outcome) (s : Sys) :
    (applyQueryOutcome q o s).detectRuns = s.detectRuns := by
  cases o <;> rfl

@[simp]
theorem applyQueryOutcome_queryRuns (q : String) (o : Outcome) (s : Sys) :
    (applyQueryOutcome q o s).queryRuns = s.queryRuns := by
  cases o <;> rfl

@[simp]
theorem applyQueryOutcome_inFlight (q : String) (o : Outcome) (s : Sys) :
    (applyQueryOutcome q o s).inFlight = s.inFlight := by
  cases o <;> rfl

theorem guardInv_init : GuardInv initSys := by
  constructor <;> simp [GuardInv, outstanding, initSys]

theorem guardInv_runCycleInvoke (g : Nat) (camOk : Bool) (s : Sys)
    (h : GuardInv s) : GuardInv (runCycleInvoke g camOk s) := by
  unfold runCycleInvoke
  split
  · exact h
  split
  · exact h
  rename_i hcan hguard
  have hflight : s.inFlight = false := by
    cases hf : s.inFlight with
    | false => rfl
    | true => exact absurd (by simp [hf]) hguard
  have hzero : outstanding s = 0 := by
    have h1 : outstanding s ≠ 1 := by
      intro hc
      have h2 := h.2.mpr hc
      rw [hflight] at h2
      exact Bool.false_ne_true h2
    have h3 := h.1
    omega
  have hd : s.detectRuns.length = 0 ∧ s.queryRuns.length = 0 := by
    unfold outstanding at hzero
    omega
  exact ⟨by simp [outstanding, hd.1, hd.2], by simp [outstanding, hd.1, hd.2]⟩

theorem guardInv_step (s : Sys) (e : Ev) (h : GuardInv s) :
    GuardInv (step s e) := by
  cases e with
  | start camOk =>
    simp only [step]
    cases hA : s.activeGen with
    | some g => exact h
    | none => exact guardInv_runCycleInvoke _ _ _ h
  | stop => exact h
  | timerFire camOk =>
    simp only [step]
    cases hT : s.timer with
    | none => exact h
    | some t => exact guardInv_runCycleInvoke _ _ _ h
  | finishDetect o =>
    simp only [step]
    cases hD : s.detectRuns with
    | nil => exact h
    | cons g rest =>
      have hone : s.detectRuns.length + s.queryRuns.length ≤ 1 := h.1
      have hr : rest.length = 0 ∧ s.queryRuns.length = 0 := by
        rw [hD] at hone
        simp only [List.length_cons] at hone
        omega
      dsimp only
      split
      · exact ⟨by simp [outstanding, hr.1, hr.2], by simp [outstanding, hr.1, hr.2]⟩
      · exact ⟨by simp [outstanding, hr.1, hr.2], by simp [outstanding, hr.1, hr.2]⟩
  | smartQuery camOk uq =>
    simp only [step]
    split
    · exact h
    rename_i hguard
    have hflight : s.inFlight = false := by
      cases hf : s.inFlight with
      | false => rfl
      | true => exact absurd (by simp [hf]) hguard
    have hzero : outstanding s = 0 := by
      have h1 : outstanding s ≠ 1 := by
        intro hc
        have h2 := h.2.mpr hc
        rw [hflight] at h2
        exact Bool.false_ne_true h2
      have h3 := h.1
      omega
    have hd : s.detectRuns.length = 0 ∧ s.queryRuns.length = 0 := by
      unfold outstanding at hzero
      omega
    exact ⟨by simp [outstanding, hd.1, hd.2], by simp [outstanding, hd.1, hd.2]⟩
  | finishQuery o =>
    simp only [step]
    cases hQ : s.queryRuns with
    | nil => exact h
    | cons q rest =>
      have hone : s.detectRuns.length + s.queryRuns.length ≤ 1 := h.1
      have hr : s.detectRuns.length = 0 ∧ rest.length = 0 := by
        rw [hQ] at hone
        simp only [List.length_cons] at hone
        omega
      exact ⟨by simp [outstanding, hr.1, hr.2], by simp [outstanding, hr.1, hr.2]⟩

theorem guardInv_steps (s : Sys) (tr : List Ev) (h : GuardInv s) :
    GuardInv (steps s tr) := by
  induction tr generalizing s with
  | nil => exact h
  | cons e tr ih => exact ih (step s e) (guardInv_step s e h)

theorem runCycleInvoke_guarded (g : Nat) (camOk : Bool) (s : Sys)
    (h : s.inFlight = true ∨ camOk = false) :
    loopView (runCycleInvoke g camOk s) = loopView s ∧
    (runCycleInvoke g camOk s).detectRuns = s.detectRuns := by
  unfold runCycleInvoke
  split
  · exact ⟨rfl, rfl⟩
  split
  · exact ⟨rfl, rfl⟩
  rename_i h1 h2
  exfalso
  rcases h with hf | hc
  · exact h2 (by simp [hf])
  · exact h2 (by simp [hc])

theorem stopped_step (s : Sys) (e : Ev)
    (hs : s.activeGen = none ∧ s.timer = none) (he : e.isStart = false) :
    ((step s e).activeGen = none ∧ (step s e).timer = none) ∧
    (step s e).detectRuns <:+ s.detectRuns := by
  cases e with
  | start camOk => simp [Ev.isStart] at he
  | stop => exact ⟨⟨rfl, rfl⟩, List.suffix_refl _⟩
  | timerFire camOk =>
    have hstep : step s (Ev.timerFire camOk) = s := by
      simp only [step, hs.2]
    rw [hstep]
    exact ⟨hs, List.suffix_refl _⟩
  | finishDetect o =>
    simp only [step]
    cases hD : s.detectRuns with
    | nil =>
      dsimp only
      exact ⟨hs, by rw [hD]⟩
    | cons g rest =>
      dsimp only
      rw [if_neg (by simp [hs.1])]
      exact ⟨⟨by simp [hs.1], by simp [hs.2]⟩, List.suffix_cons g rest⟩
  | smartQuery camOk uq =>
    simp only [step]
    split
    · exact ⟨hs, List.suffix_refl _⟩
    · exact ⟨hs, List.suffix_refl _⟩
  | finishQuery o =>
    simp only [step]
    cases hQ : s.queryRuns with
    | nil => exact ⟨hs, List.suffix_refl _⟩
    | cons q rest =>
      dsimp only
      exact ⟨⟨by simp [hs.1], by simp [hs.2]⟩,
        by rw [applyQueryOutcome_detectRuns]⟩

theorem noStart_steps (s : Sys) (tr : List Ev)
    (hs : s.activeGen = none ∧ s.timer = none)
    (he : ∀ e ∈ tr, e.isStart = false) :
    ((steps s tr).activeGen = none ∧ (steps s tr).timer = none) ∧
    (steps s tr).detectRuns <:+ s.detectRuns := by
  induction tr generalizing s with
  | nil => exact ⟨hs, List.suffix_refl _⟩
  | cons e tr ih =>
    have h1 := stopped_step s e hs (he e (List.mem_cons_self e tr))
    have h2 := ih (step s e) h1.1 (fun x hx => he x (List.mem_cons_of_mem e hx))
    exact ⟨h2.1, h2.2.trans h1.2⟩

/-- Concrete response with every optional field absent, used to exercise
the theorems on explicit inputs. -/
def rAbsent : RawResponse :=
  { objects := ObjectsField.absent, alert_text := none, answer_text := none }

/-- C2: over every sequence of start and stop calls and arbitrary
collaborator latencies (modelled as arbitrary event traces), at most one
capture-or-request body is outstanding at any time; moreover a cycle
invoked while the in-flight flag is up or the camera ref is unavailable
returns immediately, leaving the LoopState fields and the set of
outstanding capture bodies unchanged. -/
theorem at_most_one_in_flight :
    (∀ tr : List Ev, outstanding (steps initSys tr) ≤ 1) ∧
    (∀ (g : Nat) (camOk : Bool) (s : Sys), s.inFlight = true ∨ camOk = false →
      loopView (runCycleInvoke g camOk s) = loopView s ∧
      (runCycleInvoke g camOk s).detectRuns = s.detectRuns) :=
  ⟨fun tr => (guardInv_steps initSys tr guardInv_init).1,
   fun g camOk s h => runCycleInvoke_guarded g camOk s h⟩

/-- Witness for C2 at a concrete trace and a concrete busy state. -/
theorem at_most_one_in_flight_witness :
    outstanding (steps initSys [Ev.start true, Ev.smartQuery true "hi"]) ≤ 1 ∧
    loopView (runCycleInvoke 0 true { initSys with inFlight := true })
      = loopView { initSys with inFlight := true } :=
  ⟨at_most_one_in_flight.1 [Ev.start true, Ev.smartQuery true "hi"],
   (at_most_one_in_flight.2 0 true { initSys with inFlight := true } (Or.inl rfl)).1⟩

/-- C10: the smart query and the polling cycle share the single isSending
guard: on every reachable state at most one of the two kinds of request is
outstanding, invoking the smart query while a cycle is in flight is a
no-op on the whole state, and invoking a cycle while a smart query is in
flight leaves the LoopState fields and the outstanding capture bodies
unchanged. -/
theorem query_poll_share_guard :
    (∀ tr : List Ev,
      (steps initSys tr).detectRuns = [] ∨ (steps initSys tr).queryRuns = []) ∧
    (∀ (camOk : Bool) (uq : String) (s : Sys), s.inFlight = true →
      step s (Ev.smartQuery camOk uq) = s) ∧
    (∀ (g : Nat) (camOk : Bool) (s : Sys), s.inFlight = true →
      loopView (runCycleInvoke g camOk s) = loopView s ∧
      (runCycleInvoke g camOk s).detectRuns = s.detectRuns) := by
  refine ⟨?_, ?_, ?_⟩
  · intro tr
    have h := (guardInv_steps initSys tr guardInv_init).1
    unfold outstanding at h
    cases hd : (steps initSys tr).detectRuns with
    | nil => exact Or.inl rfl
    | cons a l =>
      cases hq : (steps initSys tr).queryRuns with
      | nil => exact Or.inr rfl
      | cons b m =>
        exfalso
        rw [hd, hq] at h
        simp only [List.length_cons] at h
        omega
  · intro camOk uq s hf
    simp [step, hf]
  · intro g camOk s hf
    exact runCycleInvoke_guarded g camOk s (Or.inl hf)

/-- Witness for C10 at a concrete trace and a concrete busy state. -/
theorem query_poll_share_guard_witness :
    ((steps initSys [Ev.start true]).detectRuns = [] ∨
      (steps initSys [Ev.start true]).queryRuns = []) ∧
    step { initSys with inFlight := true } (Ev.smartQuery true "hi")
      = { initSys with inFlight := true } :=
  ⟨query_poll_share_guard.1 [Ev.start true],
   query_poll_share_guard.2.1 true "hi" { initSys with inFlight := true } rfl⟩

/-- C4: when a cycle finishes while the loop is still armed, exactly one
future invocation is scheduled in the single timeout slot after the fixed
1500 ms delay, and this is the same whether the cycle failed or
succeeded. -/
theorem failed_cycle_rearms :
    ∀ (s : Sys) (g : Nat) (rest : List Nat) (f : CycleFailure) (r : RawResponse),
      s.detectRuns = g :: rest → s.activeGen = some g →
      (step s (Ev.finishDetect (Outcome.failure f))).timer
          = some { gen := g, delayMs := 1500 } ∧
      (step s (Ev.finishDetect (Outcome.success r))).timer
          = some { gen := g, delayMs := 1500 } := by
  intro s g rest f r hD hA
  constructor <;>
  · simp only [step, hD]
    rw [if_pos (by simp [hA])]

/-- Witness for C4 at the concrete state reached by arming the loop. -/
theorem failed_cycle_rearms_witness :
    (step (steps initSys [Ev.start true])
        (Ev.finishDetect (Outcome.failure (CycleFailure.transport "Network request failed")))).timer
      = some { gen := 0, delayMs := 1500 } :=
  (failed_cycle_rearms (steps initSys [Ev.start true]) 0 []
    (CycleFailure.transport "Network request failed") rAbsent
    (by decide) (by decide)).1

/-- C5: a failing cycle stores the failure message as lastError, leaves
lastDetections and lastAlertText exactly as they were before the cycle,
and lowers the in-flight flag when it ends. -/
theorem failed_cycle_preserves_results :
    ∀ (s : Sys) (g : Nat) (rest : List Nat) (f : CycleFailure),
      s.detectRuns = g :: rest →
      (step s (Ev.finishDetect (Outcome.failure f))).lastError = failureMessage f ∧
      (step s (Ev.finishDetect (Outcome.failure f))).lastDetections = s.lastDetections ∧
      (step s (Ev.finishDetect (Outcome.failure f))).lastAlertText = s.lastAlertText ∧
      (step s (Ev.finishDetect (Outcome.failure f))).inFlight = false := by
  intro s g rest f hD
  simp only [step, hD]
  split
  · exact ⟨rfl, rfl, rfl, rfl⟩
  · exact ⟨rfl, rfl, rfl, rfl⟩

/-- Witness for C5 at the concrete armed state with a 500 status. -/
theorem failed_cycle_preserves_results_witness :
    (step (steps initSys [Ev.start true])
        (Ev.finishDetect (Outcome.failure (CycleFailure.badStatus 500)))).lastError
      = failureMessage (CycleFailure.badStatus 500) ∧
    (step (steps initSys [Ev.start true])
        (Ev.finishDetect (Outcome.failure (CycleFailure.badStatus 500)))).inFlight = false :=
  ⟨(failed_cycle_preserves_results (steps initSys [Ev.start true]) 0 []
      (CycleFailure.badStatus 500) (by decide)).1,
   (failed_cycle_preserves_results (steps initSys [Ev.start true]) 0 []
      (CycleFailure.badStatus 500) (by decide)).2.2.2⟩

/-- C3: after stop returns, for every continuation that does not arm the
loop again, the timeout slot stays empty (so no pending re-arm ever
fires), the set of outstanding capture bodies only shrinks (no new cycle
ever starts), and a cycle that was already in flight still completes,
applies its parsed result to the state, and schedules no further cycle. -/
theorem no_cycle_starts_after_stop :
    ∀ (s : Sys) (tr : List Ev), (∀ e ∈ tr, e.isStart = false) →
      ((steps (step s Ev.stop) tr).timer = none ∧
       (steps (step s Ev.stop) tr).detectRuns <:+ s.detectRuns) ∧
      (∀ (r : RawResponse) (g : Nat) (rest : List Nat),
        (steps (step s Ev.stop) tr).detectRuns = g :: rest →
        (step (steps (step s Ev.stop) tr)
            (Ev.finishDetect (Outcome.success r))).lastDetections
          = parsedDetections r ∧
        (step (steps (step s Ev.stop) tr)
            (Ev.finishDetect (Outcome.success r))).timer = none) := by
  intro s tr he
  have hstop : (step s Ev.stop).activeGen = none ∧ (step s Ev.stop).timer = none :=
    ⟨rfl, rfl⟩
  have h := noStart_steps (step s Ev.stop) tr hstop he
  refine ⟨⟨h.1.2, h.2⟩, ?_⟩
  intro r g rest hD
  set t := steps (step s Ev.stop) tr with ht
  simp only [step, hD]
  rw [if_neg (by simp [h.1.1])]
  exact ⟨rfl, by simp [h.1.2]⟩

/-- Witness for C3: arm the loop once, stop while the cycle is in flight,
finish the cycle; no timer is ever pending afterwards. -/
theorem no_cycle_starts_after_stop_witness :
    (steps (step (steps initSys [Ev.start true]) Ev.stop) []).timer = none ∧
    (step (steps (step (steps initSys [Ev.start true]) Ev.stop) [])
        (Ev.finishDetect (Outcome.success rAbsent))).timer = none := by
  have h := no_cycle_starts_after_stop (steps initSys [Ev.start true]) []
    (fun e he => absurd he (List.not_mem_nil e))
  exact ⟨h.1.1, (h.2 rAbsent 0 [] (by decide)).2⟩

/-- C6: for every backend response containing an objects array, the
Detection list computed by a cycle is sorted non-decreasing in distance,
both as stored by the polling loop and as stored by the smart query. -/
theorem detections_sorted :
    ∀ (r : RawResponse) (items : List RawObject),
      r.objects = ObjectsField.arr items →
      (∀ (s : Sys) (g : Nat) (rest : List Nat), s.detectRuns = g :: rest →
        List.Sorted distLe
          ((step s (Ev.finishDetect (Outcome.success r))).lastDetections)) ∧
      (∀ (s : Sys) (q : String) (rest : List String), s.queryRuns = q :: rest →
        List.Sorted distLe
          ((step s (Ev.finishQuery (Outcome.success r))).lastDetections)) ∧
      List.Sorted distLe (parsedDetections r) := by
  intro r items hobj
  have hsorted : List.Sorted distLe (parsedDetections r) :=
    List.sorted_insertionSort distLe _
  refine ⟨?_, ?_, hsorted⟩
  · intro s g rest hD
    simp only [step, hD]
    split
    · exact hsorted
    · exact hsorted
  · intro s q rest hQ
    simp only [step, hQ]
    exact hsorted

/-- Witness for C6 at a concrete two-element unsorted objects array. -/
theorem detections_sorted_witness :
    List.Sorted distLe (parsedDetections
      { objects := ObjectsField.arr
          [{ label := some "far", distance := some 3, direction := none, risk := none },
           { label := some "near", distance := some 1, direction := none, risk := none }]
        alert_text := none, answer_text := none }) :=
  (detections_sorted
    { objects := ObjectsField.arr
        [{ label := some "far", distance := some 3, direction := none, risk := none },
         { label := some "near", distance := some 1, direction := none, risk := none }]
      alert_text := none, answer_text := none }
    [{ label := some "far", distance := some 3, direction := none, risk := none },
     { label := some "near", distance := some 1, direction := none, risk := none }]
    rfl).2.2

/-- C7: a backend object with every field absent maps to the fully
defaulted Detection. -/
theorem default_filling :
    parsedDetections
      { objects := ObjectsField.arr
          [{ label := none, distance := none, direction := none, risk := none }]
        alert_text := none, answer_text := none }
      = [{ label := "Unknown", distance := 0, direction := "center", risk := "clear" }] := by
  decide

/-- C8: when the objects field is absent or not an array, parsing treats
it as the empty array: the cycle still succeeds, stores the empty
detection list, and does not touch the error state. -/
theorem tolerant_objects_parsing :
    ∀ r : RawResponse,
      r.objects = ObjectsField.absent ∨ r.objects = ObjectsField.notArray →
      parsedDetections r = [] ∧
      (∀ (s : Sys) (g : Nat) (rest : List Nat), s.detectRuns = g :: rest →
        (step s (Ev.finishDetect (Outcome.success r))).lastDetections = [] ∧
        (step s (Ev.finishDetect (Outcome.success r))).lastError = s.lastError) := by
  intro r hobj
  have hemp : parsedDetections r = [] := by
    unfold parsedDetections extractObjects
    rcases hobj with h1 | h1 <;> rw [h1] <;> rfl
  refine ⟨hemp, ?_⟩
  intro s g rest hD
  simp only [step, hD]
  split
  · exact ⟨hemp, rfl⟩
  · exact ⟨hemp, rfl⟩

/-- Witness for C8 at a response whose objects field is a non-array. -/
theorem tolerant_objects_parsing_witness :
    parsedDetections
        { objects := ObjectsField.notArray, alert_text := some "x", answer_text := none }
      = [] :=
  (tolerant_objects_parsing
    { objects := ObjectsField.notArray, alert_text := some "x", answer_text := none }
    (Or.inr rfl)).1

/-- C9: the question sent with a smart query is the fixed default prompt
whenever the user text trims to empty, and the trimmed user text
otherwise; that string is exactly what the outgoing request carries. -/
theorem question_default :
    ∀ uq : String,
      (jsTrim uq = "" → questionToSend uq = DEFAULT_PROMPT) ∧
      (jsTrim uq ≠ "" → questionToSend uq = jsTrim uq) ∧
      (∀ s : Sys, s.inFlight = false →
        (step s (Ev.smartQuery true uq)).queryRuns
          = questionToSend uq :: s.queryRuns) := by
  intro uq
  refine ⟨?_, ?_, ?_⟩
  · intro h
    unfold questionToSend jsOrString
    rw [h, if_pos rfl]
  · intro h
    unfold questionToSend jsOrString
    rw [if_neg h]
  · intro s hf
    simp [step, hf]

/-- Witness for C9 on a whitespace-only and on a padded question. -/
theorem question_default_witness :
    questionToSend "   " = DEFAULT_PROMPT ∧ questionToSend " hello " = "hello" := by
  refine ⟨(question_default "   ").1 (by decide), ?_⟩
  have h := (question_default " hello ").2.1 (by decide)
  rw [h]
  decide

/-- C1 counterexample: running the query variant with an absent answer
text (response rAbsent) after an empty user question stores the default
prompt, not the empty string, as lastAlertText. -/
theorem query_empty_answer_counterexample :
    (step (step initSys (Ev.smartQuery true ""))
        (Ev.finishQuery (Outcome.success rAbsent))).lastAlertText = DEFAULT_PROMPT ∧
    ¬ (step (step initSys (Ev.smartQuery true ""))
        (Ev.finishQuery (Outcome.success rAbsent))).lastAlertText = "" := by
  decide

/-- C1 amended: in the query variant, when the answer text is absent or
trims to empty, lastAlertText is set to the question string that was sent
with the request (never the empty string, since the sent question is
always non-empty), and the text-to-speech collaborator is invoked exactly
when that stored text is non-empty. -/
theorem query_alert_fallback :
    (∀ uq : String, questionToSend uq ≠ "") ∧
    (∀ (s : Sys) (q : String) (rest : List String) (r : RawResponse),
      s.queryRuns = q :: rest → answerText r = "" →
      (step s (Ev.finishQuery (Outcome.success r))).lastAlertText = q ∧
      (q = "" → (step s (Ev.finishQuery (Outcome.success r))).speechLog = s.speechLog) ∧
      (q ≠ "" →
        (step s (Ev.finishQuery (Outcome.success r))).speechLog = q :: s.speechLog)) := by
  constructor
  · intro uq
    unfold questionToSend jsOrString
    split
    · intro hc
      exact absurd hc (by decide)
    · rename_i h
      exact h
  · intro s q rest r hQ hans
    have hsp : spokenText r q = q := by
      unfold spokenText jsOrString
      rw [hans, if_pos rfl]
    simp only [step, hQ]
    refine ⟨hsp, ?_, ?_⟩
    · intro hq0
      show speakAlert (spokenText r q) s.speechLog = s.speechLog
      rw [hsp, hq0]
      rfl
    · intro hqne
      show speakAlert (spokenText r q) s.speechLog = q :: s.speechLog
      rw [hsp]
      unfold speakAlert
      rw [if_neg hqne]

/-- Witness for the amended C1 at a concrete empty question and absent
answer text. -/
theorem query_alert_fallback_witness :
    questionToSend "" ≠ "" ∧
    (step (step initSys (Ev.smartQuery true ""))
        (Ev.finishQuery (Outcome.success rAbsent))).lastAlertText = DEFAULT_PROMPT := by
  constructor
  · exact query_alert_fallback.1 ""
  · exact (query_alert_fallback.2 (step initSys (Ev.smartQuery true ""))
      DEFAULT_PROMPT [] rAbsent (by decide) (by decide)).1
